import Mathlib

/-!
# Verification of `vectorbt/base/column_grouper.py`

Shallow embedding of the column-grouping subsystem: spec normalization
(`group_by_to_index`), factorization into dense group ids plus distinct
group index (`get_groups_and_index`, via `pd.factorize` and the
`is_sorted` coherence check), run-length computation
(`get_group_counts_nb`), prefix-sum boundaries, and the `ColumnGrouper`
permission/diffing policy.

Column labels and group labels are drawn from one type `α` with decidable
equality (mirroring hashable pandas labels).  Fallible operations return
`Except GroupError`, with one error constructor per `ValueError` message
raised by the Python code.
-/

set_option maxHeartbeats 1000000
set_option linter.unusedSectionVars false

deriving instance DecidableEq for Except

namespace VectorBT

variable {α : Type} [DecidableEq α]

/-- Errors raised by the column-grouping subsystem, one per distinct
`ValueError` in `column_grouper.py`. -/
inductive GroupError where
  | lengthMismatch
  | incoherentGroups
  | permissionEnable
  | permissionDisable
  | permissionModify
  deriving DecidableEq, Repr

/-- The polymorphic `group_by` argument: `null` models Python `None`,
`bool` the `True`/`False` sentinels, `labels` an explicit label sequence
already in index form.  Level selectors (int/str/tuple/list) are expanded
upstream by `index_fns.select_levels`, which lives outside this module, so
they arrive here as explicit label sequences. -/
inductive GroupBy (α : Type) where
  | null
  | bool (b : Bool)
  | labels (ls : List α)
  deriving DecidableEq

/-- `group_by_to_index(index, group_by)`: `None` and booleans pass through
unresolved; an explicit label sequence is coerced to an index and must have
the same length as `index`, else `ValueError` (length mismatch). -/
def group_by_to_index (index : List α) : GroupBy α → Except GroupError (GroupBy α)
  | GroupBy.null => Except.ok GroupBy.null
  | GroupBy.bool b => Except.ok (GroupBy.bool b)
  | GroupBy.labels ls =>
      if ls.length = index.length then Except.ok (GroupBy.labels ls)
      else Except.error GroupError.lengthMismatch

/-- The scan of `pd.factorize` with `seen` the distinct labels met so far:
returns the codes of the remaining labels (index into the full
first-occurrence list) together with the distinct labels that are newly
seen from here on. -/
def factorizeFrom (seen : List α) : List α → List Nat × List α
  | [] => ([], [])
  | x :: xs =>
      if x ∈ seen then
        (seen.indexOf x :: (factorizeFrom seen xs).1, (factorizeFrom seen xs).2)
      else
        (seen.length :: (factorizeFrom (seen ++ [x]) xs).1,
          x :: (factorizeFrom (seen ++ [x]) xs).2)

/-- Codes of `pd.factorize`: dense integer ids in first-occurrence order. -/
def codes (ls : List α) : List Nat := (factorizeFrom [] ls).1

/-- Uniques of `pd.factorize`: the distinct labels in first-occurrence order. -/
def uniques (ls : List α) : List α := (factorizeFrom [] ls).2

/-- Modelled from the spec: `is_sorted` (imported from
`vectorbt.utils.array`, whose source is not part of this repository slice)
checks that the id array is non-decreasing, i.e. "coherent and sorted". -/
def is_sorted : List Nat → Bool
  | [] => true
  | [_] => true
  | a :: b :: rest => decide (a ≤ b) && is_sorted (b :: rest)

/-- `get_groups_and_index(index, group_by)`: for `None`/booleans, the
identity grouping (`np.arange(len(index))`, original index); otherwise
normalize via `group_by_to_index`, factorize, and reject groups that are
not coherent and sorted. -/
def get_groups_and_index (index : List α) (group_by : GroupBy α) :
    Except GroupError (List Nat × List α) :=
  match group_by with
  | GroupBy.null => Except.ok (List.range index.length, index)
  | GroupBy.bool _ => Except.ok (List.range index.length, index)
  | GroupBy.labels ls =>
      match group_by_to_index index (GroupBy.labels ls) with
      | Except.error e => Except.error e
      | Except.ok _ =>
          if is_sorted (codes ls) then Except.ok (codes ls, uniques ls)
          else Except.error GroupError.incoherentGroups

/-- The loop of `get_group_counts_nb`, with state `prev` (= `prev_group`,
initially `-1`), `run` (= `run_count`) and `acc` the emitted run lengths in
reverse order.  A decreasing id raises `ValueError` (incoherent groups);
the final run is emitted when the last element is processed. -/
def gccLoop : List Int → Int → Nat → List Nat → Except GroupError (List Nat)
  | [], _, _, acc => Except.ok acc.reverse
  | cur :: rest, prev, run, acc =>
      if cur < prev then Except.error GroupError.incoherentGroups
      else
        let acc2 := if cur ≠ prev ∧ prev ≠ -1 then run :: acc else acc
        let run2 := (if cur ≠ prev ∧ prev ≠ -1 then 0 else run) + 1
        let prev2 := if cur ≠ prev then cur else prev
        match rest with
        | [] => Except.ok (run2 :: acc2).reverse
        | y :: ys => gccLoop (y :: ys) prev2 run2 acc2

/-- `get_group_counts_nb(groups)`: run length of each group, failing on a
decreasing id. -/
def get_group_counts_nb (groups : List Int) : Except GroupError (List Nat) :=
  gccLoop groups (-1) 0 []

/-- `cumsum` with a running total, for `np.cumsum`. -/
def cumsumFrom (acc : Nat) : List Nat → List Nat
  | [] => []
  | x :: xs => (acc + x) :: cumsumFrom (acc + x) xs

/-- `np.cumsum` on a natural-number array: inclusive prefix sums. -/
def cumsum (l : List Nat) : List Nat := cumsumFrom 0 l

/-- Body of `ColumnGrouper.get_group_end_idxs`: `np.cumsum(group_counts)`. -/
def group_end_idxs (counts : List Nat) : List Nat := cumsum counts

/-- Body of `ColumnGrouper.get_group_start_idxs`:
`np.cumsum(group_counts) - group_counts` (elementwise). -/
def group_start_idxs (counts : List Nat) : List Nat :=
  List.zipWith (fun a b => a - b) (cumsum counts) counts

/-- The `ColumnGrouper` state: original columns, the normalized baseline
grouping (`None` when constructed from `None` or a boolean), and the three
permission flags. -/
structure ColumnGrouper (α : Type) where
  columns : List α
  group_by : Option (List α)
  allow_enable : Bool
  allow_disable : Bool
  allow_modify : Bool
  deriving DecidableEq

/-- `ColumnGrouper.is_grouped`: `False` for an explicit disable; `None`/`True`
fall back to the baseline; anything else means grouped. -/
def ColumnGrouper.is_grouped (g : ColumnGrouper α) (group_by : GroupBy α) : Bool :=
  match group_by with
  | GroupBy.bool false => false
  | GroupBy.null => g.group_by.isSome
  | GroupBy.bool true => g.group_by.isSome
  | GroupBy.labels _ => true

/-- `ColumnGrouper.is_grouping_enabled`: baseline absent and the candidate
grouped. -/
def ColumnGrouper.is_grouping_enabled (g : ColumnGrouper α) (group_by : GroupBy α) : Bool :=
  g.group_by.isNone && g.is_grouped group_by

/-- `ColumnGrouper.is_grouping_disabled`: baseline present and the candidate
not grouped. -/
def ColumnGrouper.is_grouping_disabled (g : ColumnGrouper α) (group_by : GroupBy α) : Bool :=
  g.group_by.isSome && !(g.is_grouped group_by)

/-- `ColumnGrouper.is_grouping_modified`: normalize the candidate; when both
candidate and baseline are label sequences and their raw labels differ,
compare the factorized group-id arrays; a partition change (different ids)
is a modification, a pure relabeling is not. -/
def ColumnGrouper.is_grouping_modified (g : ColumnGrouper α) (group_by : GroupBy α) :
    Except GroupError Bool := do
  let gb ← group_by_to_index g.columns group_by
  match gb, g.group_by with
  | GroupBy.labels ls, some base =>
      if ls ≠ base then do
        let p1 ← get_groups_and_index g.columns (GroupBy.labels ls)
        let p2 ← get_groups_and_index g.columns (GroupBy.labels base)
        if p1.1 ≠ p2.1 then Except.ok true else Except.ok false
      else Except.ok false
  | _, _ => Except.ok false

/-- `ColumnGrouper.is_grouping_changed`: enabled, disabled or modified. -/
def ColumnGrouper.is_grouping_changed (g : ColumnGrouper α) (group_by : GroupBy α) :
    Except GroupError Bool :=
  if g.is_grouping_enabled group_by then Except.ok true
  else if g.is_grouping_disabled group_by then Except.ok true
  else g.is_grouping_modified group_by

/-- `ColumnGrouper.check_group_by`: raise `ValueError` when a disallowed
enable/disable/modify is requested; the flag arguments default (`none`) to
the grouper's own flags.  The modification predicate is only evaluated when
`allow_modify` is false, mirroring Python's short-circuiting `and`. -/
def ColumnGrouper.check_group_by (g : ColumnGrouper α) (group_by : GroupBy α)
    (ae0 ad0 am0 : Option Bool) : Except GroupError Unit :=
  let ae := ae0.getD g.allow_enable
  let ad := ad0.getD g.allow_disable
  let am := am0.getD g.allow_modify
  if !ae && g.is_grouping_enabled group_by then
    Except.error GroupError.permissionEnable
  else if !ad && g.is_grouping_disabled group_by then
    Except.error GroupError.permissionDisable
  else if !am then do
    let m ← g.is_grouping_modified group_by
    if m then Except.error GroupError.permissionModify else Except.ok ()
  else Except.ok ()

/-- The substitution step of `ColumnGrouper.resolve_group_by`: `None`/`True`
are replaced by the baseline; an explicit `False` with an absent baseline
short-circuits to `None`. -/
def ColumnGrouper.substituted (g : ColumnGrouper α) (group_by : GroupBy α) : GroupBy α :=
  let gb1 := match group_by with
    | GroupBy.null | GroupBy.bool true =>
        match g.group_by with
        | some ls => GroupBy.labels ls
        | none => GroupBy.null
    | x => x
  match gb1, g.group_by with
  | GroupBy.bool false, none => GroupBy.null
  | x, _ => x

/-- `ColumnGrouper.resolve_group_by`: substitute the baseline, check
permissions, then delegate normalization to `group_by_to_index`. -/
def ColumnGrouper.resolve_group_by (g : ColumnGrouper α) (group_by : GroupBy α) :
    Except GroupError (GroupBy α) := do
  let gb := g.substituted group_by
  g.check_group_by gb none none none
  group_by_to_index g.columns gb

/-- `ColumnGrouper.get_groups_and_columns`: resolve, then factorize. -/
def ColumnGrouper.get_groups_and_columns (g : ColumnGrouper α) (group_by : GroupBy α) :
    Except GroupError (List Nat × List α) := do
  let gb ← g.resolve_group_by group_by
  get_groups_and_index g.columns gb

/-- `ColumnGrouper.get_groups`: the group-id array. -/
def ColumnGrouper.get_groups (g : ColumnGrouper α) (group_by : GroupBy α) :
    Except GroupError (List Nat) := do
  let p ← g.get_groups_and_columns group_by
  Except.ok p.1

/-- `ColumnGrouper.get_columns`: the grouped index. -/
def ColumnGrouper.get_columns (g : ColumnGrouper α) (group_by : GroupBy α) :
    Except GroupError (List α) := do
  let p ← g.get_groups_and_columns group_by
  Except.ok p.2

/-- `ColumnGrouper.get_group_counts`: `np.full(len(columns), 1)` when the
resolved grouping is absent or `False`, else `get_group_counts_nb` on the
group-id array. -/
def ColumnGrouper.get_group_counts (g : ColumnGrouper α) (group_by : GroupBy α) :
    Except GroupError (List Nat) := do
  let gb ← g.resolve_group_by group_by
  match gb with
  | GroupBy.null => Except.ok (List.replicate g.columns.length 1)
  | GroupBy.bool false => Except.ok (List.replicate g.columns.length 1)
  | _ => do
      let groups ← g.get_groups group_by
      get_group_counts_nb (groups.map Int.ofNat)

/-- `ColumnGrouper.get_group_start_idxs`: exclusive prefix sums of the
group counts. -/
def ColumnGrouper.get_group_start_idxs (g : ColumnGrouper α) (group_by : GroupBy α) :
    Except GroupError (List Nat) := do
  let counts ← g.get_group_counts group_by
  Except.ok (group_start_idxs counts)

/-- `ColumnGrouper.get_group_end_idxs`: inclusive prefix sums of the
group counts. -/
def ColumnGrouper.get_group_end_idxs (g : ColumnGrouper α) (group_by : GroupBy α) :
    Except GroupError (List Nat) := do
  let counts ← g.get_group_counts group_by
  Except.ok (group_end_idxs counts)

/-- A strictly decreasing adjacent pair somewhere in an id array: the
condition `get_group_counts_nb` observes and rejects. -/
def hasAdjDecrease : List Int → Bool
  | a :: b :: rest => decide (b < a) || hasAdjDecrease (b :: rest)
  | _ => false

/-! ## Sortedness lemmas -/

theorem is_sorted_iff_chain (l : List Nat) :
    is_sorted l = true ↔ List.Chain' (· ≤ ·) l := by
  induction l with
  | nil => simp [is_sorted]
  | cons a l ih =>
    cases l with
    | nil => simp [is_sorted]
    | cons b m =>
      rw [show is_sorted (a :: b :: m) = (decide (a ≤ b) && is_sorted (b :: m)) from rfl,
        Bool.and_eq_true, decide_eq_true_iff, List.chain'_cons]
      exact and_congr Iff.rfl ih

theorem is_sorted_getD_mono {l : List Nat} (h : is_sorted l = true)
    {i j : Nat} (hij : i ≤ j) (hj : j < l.length) :
    l.getD i 0 ≤ l.getD j 0 := by
  rcases Nat.eq_or_lt_of_le hij with rfl | hlt
  · exact Nat.le_refl _
  · have hp : l.Pairwise (· ≤ ·) :=
      List.chain'_iff_pairwise.mp ((is_sorted_iff_chain l).mp h)
    have hi : i < l.length := Nat.lt_of_lt_of_le hlt (Nat.le_of_lt hj)
    rw [List.getD_eq_getElem l 0 hi, List.getD_eq_getElem l 0 hj]
    exact List.pairwise_iff_getElem.mp hp i j hi hj hlt

/-! ## `pd.factorize` invariants -/

theorem factorizeFrom_fst_length (seen : List α) (l : List α) :
    (factorizeFrom seen l).1.length = l.length := by
  induction l generalizing seen with
  | nil => rfl
  | cons x xs ih =>
    by_cases hx : x ∈ seen <;> simp [factorizeFrom, hx, ih]

theorem factorizeFrom_getD (l : List α) :
    ∀ (seen : List α) (d : α) (i : Nat), i < l.length →
      (seen ++ (factorizeFrom seen l).2).getD ((factorizeFrom seen l).1.getD i 0) d
        = l.getD i d := by
  induction l with
  | nil => intro seen d i hi; simp at hi
  | cons x xs ih =>
    intro seen d i hi
    by_cases hx : x ∈ seen
    · simp only [factorizeFrom, if_pos hx]
      cases i with
      | zero =>
        have hk : seen.indexOf x < seen.length := List.indexOf_lt_length.mpr hx
        have hk2 : seen.indexOf x < (seen ++ (factorizeFrom seen xs).2).length := by
          simp; omega
        simp only [List.getD_cons_zero]
        rw [List.getD_eq_getElem _ d hk2, List.getElem_append_left hk,
          List.getElem_indexOf hk]
      | succ i =>
        simp only [List.getD_cons_succ]
        exact ih seen d i (by simpa using hi)
    · simp only [factorizeFrom, if_neg hx]
      cases i with
      | zero =>
        have hk2 : seen.length <
            (seen ++ x :: (factorizeFrom (seen ++ [x]) xs).2).length := by
          simp
        simp only [List.getD_cons_zero]
        rw [List.getD_eq_getElem _ d hk2,
          List.getElem_append_right (Nat.le_refl seen.length)]
        simp
      | succ i =>
        simp only [List.getD_cons_succ]
        have := ih (seen ++ [x]) d i (by simpa using hi)
        simpa [List.append_assoc] using this

theorem factorizeFrom_fst_lt (l : List α) :
    ∀ (seen : List α) (i : Nat), i < l.length →
      (factorizeFrom seen l).1.getD i 0 < seen.length + (factorizeFrom seen l).2.length := by
  induction l with
  | nil => intro seen i hi; simp at hi
  | cons x xs ih =>
    intro seen i hi
    by_cases hx : x ∈ seen
    · simp only [factorizeFrom, if_pos hx]
      cases i with
      | zero =>
        have hk : seen.indexOf x < seen.length := List.indexOf_lt_length.mpr hx
        simp only [List.getD_cons_zero]
        omega
      | succ i =>
        simp only [List.getD_cons_succ]
        exact ih seen i (by simpa using hi)
    · simp only [factorizeFrom, if_neg hx]
      cases i with
      | zero => simp
      | succ i =>
        simp only [List.getD_cons_succ]
        have := ih (seen ++ [x]) i (by simpa using hi)
        simp only [List.length_append, List.length_singleton] at this
        simp only [List.length_cons]
        omega

theorem factorizeFrom_surj (l : List α) :
    ∀ (seen : List α) (k : Nat), k < (factorizeFrom seen l).2.length →
      ∃ i, i < l.length ∧ (factorizeFrom seen l).1.getD i 0 = seen.length + k := by
  induction l with
  | nil => intro seen k hk; simp [factorizeFrom] at hk
  | cons x xs ih =>
    intro seen k hk
    by_cases hx : x ∈ seen
    · simp only [factorizeFrom, if_pos hx] at hk ⊢
      obtain ⟨i, hi, hcode⟩ := ih seen k hk
      exact ⟨i + 1, by simpa using hi, by simpa using hcode⟩
    · simp only [factorizeFrom, if_neg hx] at hk ⊢
      cases k with
      | zero => exact ⟨0, by simp, by simp⟩
      | succ k =>
        have hk2 : k < (factorizeFrom (seen ++ [x]) xs).2.length := by
          simpa using hk
        obtain ⟨i, hi, hcode⟩ := ih (seen ++ [x]) k hk2
        refine ⟨i + 1, by simpa using hi, ?_⟩
        simp only [List.getD_cons_succ, hcode, List.length_append, List.length_singleton]
        omega

theorem codes_length (ls : List α) : (codes ls).length = ls.length :=
  factorizeFrom_fst_length [] ls

theorem uniques_getD_codes (ls : List α) (d : α) (i : Nat) (hi : i < ls.length) :
    (uniques ls).getD ((codes ls).getD i 0) d = ls.getD i d := by
  have := factorizeFrom_getD ls [] d i hi
  simpa [codes, uniques] using this

theorem codes_getD_lt (ls : List α) (i : Nat) (hi : i < ls.length) :
    (codes ls).getD i 0 < (uniques ls).length := by
  have := factorizeFrom_fst_lt ls [] i hi
  simpa [codes, uniques] using this

theorem codes_surj (ls : List α) (k : Nat) (hk : k < (uniques ls).length) :
    ∃ i, i < ls.length ∧ (codes ls).getD i 0 = k := by
  have := factorizeFrom_surj ls [] k hk
  simpa [codes, uniques] using this

/-! ## Prefix-sum (`np.cumsum`) lemmas -/

theorem cumsumFrom_length (a : Nat) (l : List Nat) :
    (cumsumFrom a l).length = l.length := by
  induction l generalizing a with
  | nil => rfl
  | cons x xs ih => simp [cumsumFrom, ih]

theorem cumsumFrom_getD (l : List Nat) :
    ∀ (a k : Nat), k < l.length →
      (cumsumFrom a l).getD k 0 = a + (l.take (k + 1)).sum := by
  induction l with
  | nil => intro a k hk; simp at hk
  | cons x xs ih =>
    intro a k hk
    cases k with
    | zero => simp [cumsumFrom]
    | succ k =>
      have := ih (a + x) k (by simpa using hk)
      simp only [cumsumFrom, List.getD_cons_succ, this, List.take_succ_cons, List.sum_cons]
      omega

theorem cumsum_getD (l : List Nat) (k : Nat) (hk : k < l.length) :
    (cumsum l).getD k 0 = (l.take (k + 1)).sum := by
  simpa using cumsumFrom_getD l 0 k hk

theorem cumsum_length (l : List Nat) : (cumsum l).length = l.length :=
  cumsumFrom_length 0 l

theorem cumsum_getD_last (l : List Nat) :
    (cumsum l).getD (l.length - 1) 0 = l.sum := by
  cases l with
  | nil => rfl
  | cons x xs =>
    have hk : (x :: xs).length - 1 < (x :: xs).length := by simp
    rw [cumsum_getD (x :: xs) _ hk]
    simp [List.take_of_length_le]

theorem cumsumFrom_replicate_one (n : Nat) :
    ∀ a, cumsumFrom a (List.replicate n 1) = (List.range n).map (fun i => a + i + 1) := by
  induction n with
  | zero => intro a; rfl
  | succ n ih =>
    intro a
    rw [List.replicate_succ, List.range_succ_eq_map]
    simp only [cumsumFrom, ih (a + 1), List.map_cons, List.map_map]
    congr 1
    apply List.map_congr_left
    intro i _
    simp only [Function.comp_apply]
    omega

theorem cumsum_replicate_one (n : Nat) :
    cumsum (List.replicate n 1) = (List.range n).map (fun i => i + 1) := by
  rw [cumsum, cumsumFrom_replicate_one]
  apply List.map_congr_left
  intro i _
  omega

theorem zipWith_sub_map_succ (l : List Nat) :
    List.zipWith (fun a b => a - b) (l.map (fun i => i + 1)) (List.replicate l.length 1) = l := by
  induction l with
  | nil => rfl
  | cons x xs ih => simp [List.replicate_succ, ih]

theorem group_start_idxs_replicate_one (n : Nat) :
    group_start_idxs (List.replicate n 1) = List.range n := by
  rw [group_start_idxs, cumsum_replicate_one]
  have := zipWith_sub_map_succ (List.range n)
  simpa using this

theorem group_end_idxs_replicate_one (n : Nat) :
    group_end_idxs (List.replicate n 1) = (List.range n).map (fun i => i + 1) :=
  cumsum_replicate_one n

theorem group_start_idxs_getD (counts : List Nat) (k : Nat) (hk : k < counts.length) :
    (group_start_idxs counts).getD k 0 =
      (cumsum counts).getD k 0 - counts.getD k 0 := by
  have hlen : k < (List.zipWith (fun a b => a - b) (cumsum counts) counts).length := by
    simp [cumsum_length]; omega
  rw [group_start_idxs, List.getD_eq_getElem _ 0 hlen, List.getElem_zipWith,
    List.getD_eq_getElem _ 0 (by simp [cumsum_length]; omega),
    List.getD_eq_getElem _ 0 hk]

/-! ## Run-length loop (`get_group_counts_nb`) lemmas -/

theorem gccLoop_single (cur prev : Int) (run : Nat) (acc : List Nat) :
    gccLoop [cur] prev run acc =
      if cur < prev then Except.error GroupError.incoherentGroups
      else Except.ok (((if cur ≠ prev ∧ prev ≠ -1 then 0 else run) + 1) ::
        (if cur ≠ prev ∧ prev ≠ -1 then run :: acc else acc)).reverse := rfl

theorem gccLoop_step (cur y : Int) (ys : List Int) (prev : Int) (run : Nat)
    (acc : List Nat) :
    gccLoop (cur :: y :: ys) prev run acc =
      if cur < prev then Except.error GroupError.incoherentGroups
      else gccLoop (y :: ys) (if cur ≠ prev then cur else prev)
        ((if cur ≠ prev ∧ prev ≠ -1 then 0 else run) + 1)
        (if cur ≠ prev ∧ prev ≠ -1 then run :: acc else acc) := rfl

theorem gccLoop_error (l : List Int) :
    ∀ (prev : Int) (run : Nat) (acc : List Nat), hasAdjDecrease (prev :: l) = true →
      gccLoop l prev run acc = Except.error GroupError.incoherentGroups := by
  induction l with
  | nil => intro prev run acc h; simp [hasAdjDecrease] at h
  | cons cur rest ih =>
    intro prev run acc h
    rw [hasAdjDecrease] at h
    by_cases hcp : cur < prev
    · cases rest with
      | nil => rw [gccLoop_single, if_pos hcp]
      | cons y ys => rw [gccLoop_step, if_pos hcp]
    · have h2 : hasAdjDecrease (cur :: rest) = true := by
        simpa [hcp] using h
      cases rest with
      | nil => simp [hasAdjDecrease] at h2
      | cons y ys =>
        have hprev2 : (if cur ≠ prev then cur else prev) = cur := by
          by_cases h3 : cur = prev <;> simp [h3]
        rw [gccLoop_step, if_neg hcp, hprev2]
        exact ih cur _ _ h2

theorem gccLoop_ok_sum (l : List Int) :
    ∀ (prev : Int) (run : Nat) (acc : List Nat), l ≠ [] →
      hasAdjDecrease (prev :: l) = false →
      ∃ out, gccLoop l prev run acc = Except.ok out ∧
        out.sum = acc.sum + run + l.length := by
  induction l with
  | nil => intro prev run acc h _; exact absurd rfl h
  | cons cur rest ih =>
    intro prev run acc _ h
    rw [hasAdjDecrease] at h
    have hcp : ¬ (cur < prev) := by
      intro hc
      simp [hc] at h
    have h2 : hasAdjDecrease (cur :: rest) = false := by
      simpa [hcp] using h
    cases rest with
    | nil =>
      by_cases hemit : cur ≠ prev ∧ prev ≠ -1
      · refine ⟨(((0 : Nat) + 1) :: run :: acc).reverse, ?_, ?_⟩
        · rw [gccLoop_single, if_neg hcp, if_pos hemit, if_pos hemit]
        · simp [List.sum_reverse]; omega
      · refine ⟨((run + 1) :: acc).reverse, ?_, ?_⟩
        · rw [gccLoop_single, if_neg hcp, if_neg hemit, if_neg hemit]
        · simp [List.sum_reverse]; omega
    | cons y ys =>
      have hprev2 : (if cur ≠ prev then cur else prev) = cur := by
        by_cases h3 : cur = prev <;> simp [h3]
      by_cases hemit : cur ≠ prev ∧ prev ≠ -1
      · obtain ⟨out, hout, hsum⟩ := ih cur (0 + 1) (run :: acc) (by simp) h2
        refine ⟨out, ?_, ?_⟩
        · rw [gccLoop_step, if_neg hcp, hprev2, if_pos hemit, if_pos hemit]
          exact hout
        · rw [hsum]; simp; omega
      · obtain ⟨out, hout, hsum⟩ := ih cur (run + 1) acc (by simp) h2
        refine ⟨out, ?_, ?_⟩
        · rw [gccLoop_step, if_neg hcp, hprev2, if_neg hemit, if_neg hemit]
          exact hout
        · rw [hsum]; simp; omega

theorem hasAdjDecrease_sentinel (G : List Int) (hpos : ∀ x ∈ G, 0 ≤ x)
    (h : hasAdjDecrease G = false) : hasAdjDecrease ((-1 : Int) :: G) = false := by
  cases G with
  | nil => rfl
  | cons a rest =>
    rw [hasAdjDecrease, h]
    have : ¬ (a < -1) := by
      have := hpos a (by simp)
      omega
    simp [this]

theorem get_group_counts_nb_ok_sum (G : List Int) (hpos : ∀ x ∈ G, 0 ≤ x)
    (h : hasAdjDecrease G = false) :
    ∃ counts, get_group_counts_nb G = Except.ok counts ∧ counts.sum = G.length := by
  cases hG : G with
  | nil => exact ⟨[], rfl, rfl⟩
  | cons a rest =>
    subst hG
    obtain ⟨out, hout, hsum⟩ :=
      gccLoop_ok_sum (a :: rest) (-1) 0 [] (by simp) (hasAdjDecrease_sentinel _ hpos h)
    exact ⟨out, hout, by simpa using hsum⟩

/-! ## `Except` bind reduction -/

theorem ebind_ok {ε β γ : Type} (x : β) (f : β → Except ε γ) :
    (Except.ok x >>= f : Except ε γ) = f x := rfl

theorem ebind_err {ε β γ : Type} (e : ε) (f : β → Except ε γ) :
    (Except.error e >>= f : Except ε γ) = Except.error e := rfl

/-! ## `get_groups_and_index` characterization -/

theorem get_groups_and_index_labels_ok (index ls : List α)
    (hl : ls.length = index.length) (hs : is_sorted (codes ls) = true) :
    get_groups_and_index index (GroupBy.labels ls) = Except.ok (codes ls, uniques ls) := by
  unfold get_groups_and_index group_by_to_index
  dsimp only
  rw [if_pos hl]
  dsimp only
  rw [if_pos hs]

theorem get_groups_and_index_labels_incoherent (index ls : List α)
    (hl : ls.length = index.length) (hs : is_sorted (codes ls) = false) :
    get_groups_and_index index (GroupBy.labels ls) =
      Except.error GroupError.incoherentGroups := by
  unfold get_groups_and_index group_by_to_index
  dsimp only
  rw [if_pos hl]
  dsimp only
  simp [hs]

theorem get_groups_and_index_labels_mismatch (index ls : List α)
    (hl : ¬ ls.length = index.length) :
    get_groups_and_index index (GroupBy.labels ls) =
      Except.error GroupError.lengthMismatch := by
  unfold get_groups_and_index group_by_to_index
  dsimp only
  rw [if_neg hl]

/-! ## `is_grouping_modified` characterization -/

theorem is_grouping_modified_null (g : ColumnGrouper α) :
    g.is_grouping_modified GroupBy.null = Except.ok false := rfl

theorem is_grouping_modified_bool (g : ColumnGrouper α) (b : Bool) :
    g.is_grouping_modified (GroupBy.bool b) = Except.ok false := rfl

theorem is_grouping_modified_labels_none {g : ColumnGrouper α} (ls : List α)
    (hgb : g.group_by = none) (hlen : ls.length = g.columns.length) :
    g.is_grouping_modified (GroupBy.labels ls) = Except.ok false := by
  unfold ColumnGrouper.is_grouping_modified
  rw [show group_by_to_index g.columns (GroupBy.labels ls) =
      Except.ok (GroupBy.labels ls) from by
        unfold group_by_to_index; dsimp only; rw [if_pos hlen]]
  rw [ebind_ok, hgb]

theorem is_grouping_modified_labels_some {g : ColumnGrouper α} {ls base : List α}
    (hgb : g.group_by = some base)
    (hlen : ls.length = g.columns.length)
    (hblen : base.length = g.columns.length)
    (h1 : is_sorted (codes ls) = true) (h2 : is_sorted (codes base) = true) :
    g.is_grouping_modified (GroupBy.labels ls) =
      Except.ok (if ls = base then false
        else if codes ls = codes base then false else true) := by
  unfold ColumnGrouper.is_grouping_modified
  rw [show group_by_to_index g.columns (GroupBy.labels ls) =
      Except.ok (GroupBy.labels ls) from by
        unfold group_by_to_index; dsimp only; rw [if_pos hlen]]
  rw [ebind_ok, hgb]
  dsimp only
  by_cases he : ls = base
  · simp [he]
  · rw [get_groups_and_index_labels_ok _ _ hlen h1,
      get_groups_and_index_labels_ok _ _ hblen h2, ebind_ok, ebind_ok]
    by_cases hc : codes ls = codes base <;> simp [he, hc]

theorem is_grouping_modified_ok_true {g : ColumnGrouper α} {gb : GroupBy α}
    (h : g.is_grouping_modified gb = Except.ok true) :
    g.group_by.isSome = true ∧ g.is_grouped gb = true := by
  cases gb with
  | null => rw [is_grouping_modified_null] at h; cases h
  | bool b => rw [is_grouping_modified_bool] at h; cases h
  | labels ls =>
    refine ⟨?_, rfl⟩
    cases hgb : g.group_by with
    | some base => rfl
    | none =>
      by_cases hlen : ls.length = g.columns.length
      · rw [is_grouping_modified_labels_none ls hgb hlen] at h
        cases h
      · unfold ColumnGrouper.is_grouping_modified at h
        rw [show group_by_to_index g.columns (GroupBy.labels ls) =
            Except.error GroupError.lengthMismatch from by
              unfold group_by_to_index; dsimp only; rw [if_neg hlen]] at h
        rw [ebind_err] at h
        cases h

/-! ## Predicate exclusivity -/

theorem enabled_disabled_exclusive (g : ColumnGrouper α) (gb : GroupBy α) :
    ¬ (g.is_grouping_enabled gb = true ∧ g.is_grouping_disabled gb = true) := by
  intro h
  obtain ⟨h1, h2⟩ := h
  unfold ColumnGrouper.is_grouping_enabled at h1
  unfold ColumnGrouper.is_grouping_disabled at h2
  cases hgb : g.group_by <;> rw [hgb] at h1 h2 <;> simp at h1 h2

theorem enabled_modified_exclusive {g : ColumnGrouper α} {gb : GroupBy α}
    (h : g.is_grouping_modified gb = Except.ok true) :
    g.is_grouping_enabled gb = false := by
  obtain ⟨hsome, _⟩ := is_grouping_modified_ok_true h
  unfold ColumnGrouper.is_grouping_enabled
  cases hgb : g.group_by with
  | none => rw [hgb] at hsome; cases hsome
  | some base => simp

theorem disabled_modified_exclusive {g : ColumnGrouper α} {gb : GroupBy α}
    (h : g.is_grouping_modified gb = Except.ok true) :
    g.is_grouping_disabled gb = false := by
  obtain ⟨_, hgrouped⟩ := is_grouping_modified_ok_true h
  unfold ColumnGrouper.is_grouping_disabled
  rw [hgrouped]
  simp

/-! ## `check_group_by` characterization -/

theorem check_group_by_eq {g : ColumnGrouper α} {gb : GroupBy α} {m : Bool}
    (him : g.is_grouping_modified gb = Except.ok m) :
    g.check_group_by gb none none none =
      (if !g.allow_enable && g.is_grouping_enabled gb then
        Except.error GroupError.permissionEnable
      else if !g.allow_disable && g.is_grouping_disabled gb then
        Except.error GroupError.permissionDisable
      else if !g.allow_modify && m then
        Except.error GroupError.permissionModify
      else Except.ok ()) := by
  unfold ColumnGrouper.check_group_by
  simp only [Option.getD_none]
  by_cases h1 : (!g.allow_enable && g.is_grouping_enabled gb) = true
  · rw [if_pos h1, if_pos h1]
  · rw [if_neg h1, if_neg h1]
    by_cases h2 : (!g.allow_disable && g.is_grouping_disabled gb) = true
    · rw [if_pos h2, if_pos h2]
    · rw [if_neg h2, if_neg h2]
      by_cases h3 : (!g.allow_modify) = true
      · rw [if_pos h3, him, ebind_ok]
        cases m <;> simp [h3]
      · rw [if_neg h3]
        have hm : (!g.allow_modify && m) = false := by
          cases m <;> simp_all
        rw [hm]
        simp

/-! ## Remaining helper lemmas -/

theorem is_sorted_range (n : Nat) : is_sorted (List.range n) = true := by
  rw [is_sorted_iff_chain]
  exact List.chain'_iff_pairwise.mpr (List.sorted_le_range n)

theorem is_sorted_contiguous {l : List Nat} (hs : is_sorted l = true)
    {i j k : Nat} (hij : i ≤ j) (hjk : j ≤ k) (hk : k < l.length)
    (heq : l.getD i 0 = l.getD k 0) : l.getD j 0 = l.getD i 0 := by
  have h1 := is_sorted_getD_mono hs hij (Nat.lt_of_le_of_lt hjk hk)
  have h2 := is_sorted_getD_mono hs hjk hk
  omega

theorem hasAdjDecrease_sentinel_true (G : List Int) (h : hasAdjDecrease G = true) :
    hasAdjDecrease ((-1 : Int) :: G) = true := by
  cases G with
  | nil => simp [hasAdjDecrease] at h
  | cons a rest =>
    rw [hasAdjDecrease, h]
    simp

theorem sum_take_succ_getD (l : List Nat) (k : Nat) (hk : k < l.length) :
    (l.take (k + 1)).sum = (l.take k).sum + l.getD k 0 := by
  rw [List.getD_eq_getElem l 0 hk, List.take_succ, List.getElem?_eq_getElem hk]
  simp only [Option.toList_some, List.sum_append, List.sum_cons, List.sum_nil]
  omega

theorem is_grouping_enabled_null (g : ColumnGrouper α) :
    g.is_grouping_enabled GroupBy.null = false := by
  unfold ColumnGrouper.is_grouping_enabled ColumnGrouper.is_grouped
  cases g.group_by <;> rfl

theorem is_grouping_disabled_null (g : ColumnGrouper α) :
    g.is_grouping_disabled GroupBy.null = false := by
  unfold ColumnGrouper.is_grouping_disabled ColumnGrouper.is_grouped
  cases g.group_by <;> rfl

theorem check_group_by_null (g : ColumnGrouper α) :
    g.check_group_by GroupBy.null none none none = Except.ok () := by
  rw [check_group_by_eq (is_grouping_modified_null g)]
  simp [is_grouping_enabled_null, is_grouping_disabled_null]

theorem check_error_enable_iff {g : ColumnGrouper α} {gb : GroupBy α} {m : Bool}
    (him : g.is_grouping_modified gb = Except.ok m) :
    g.check_group_by gb none none none = Except.error GroupError.permissionEnable
      ↔ g.allow_enable = false ∧ g.is_grouping_enabled gb = true := by
  rw [check_group_by_eq him]
  by_cases h1 : (!g.allow_enable && g.is_grouping_enabled gb) = true
  · rw [if_pos h1]
    simp only [Bool.and_eq_true, Bool.not_eq_true'] at h1
    simp [h1]
  · rw [if_neg h1]
    constructor
    · intro hc
      exfalso
      by_cases h2 : (!g.allow_disable && g.is_grouping_disabled gb) = true
      · rw [if_pos h2] at hc; exact absurd hc (by decide)
      · rw [if_neg h2] at hc
        by_cases h3 : (!g.allow_modify && m) = true
        · rw [if_pos h3] at hc; exact absurd hc (by decide)
        · rw [if_neg h3] at hc; exact absurd hc (by decide)
    · intro hab
      exact absurd (by simp [hab.1, hab.2]) h1

theorem check_error_disable_iff {g : ColumnGrouper α} {gb : GroupBy α} {m : Bool}
    (him : g.is_grouping_modified gb = Except.ok m) :
    g.check_group_by gb none none none = Except.error GroupError.permissionDisable
      ↔ g.allow_disable = false ∧ g.is_grouping_disabled gb = true := by
  rw [check_group_by_eq him]
  by_cases h1 : (!g.allow_enable && g.is_grouping_enabled gb) = true
  · rw [if_pos h1]
    simp only [Bool.and_eq_true, Bool.not_eq_true'] at h1
    constructor
    · intro hc; exact absurd hc (by decide)
    · intro hab
      exact absurd ⟨h1.2, hab.2⟩ (enabled_disabled_exclusive g gb)
  · rw [if_neg h1]
    by_cases h2 : (!g.allow_disable && g.is_grouping_disabled gb) = true
    · rw [if_pos h2]
      simp only [Bool.and_eq_true, Bool.not_eq_true'] at h2
      simp [h2]
    · rw [if_neg h2]
      constructor
      · intro hc
        exfalso
        by_cases h3 : (!g.allow_modify && m) = true
        · rw [if_pos h3] at hc; exact absurd hc (by decide)
        · rw [if_neg h3] at hc; exact absurd hc (by decide)
      · intro hab
        exact absurd (by simp [hab.1, hab.2]) h2

theorem check_error_modify_iff {g : ColumnGrouper α} {gb : GroupBy α} {m : Bool}
    (him : g.is_grouping_modified gb = Except.ok m) :
    g.check_group_by gb none none none = Except.error GroupError.permissionModify
      ↔ g.allow_modify = false ∧ m = true := by
  rw [check_group_by_eq him]
  by_cases h1 : (!g.allow_enable && g.is_grouping_enabled gb) = true
  · rw [if_pos h1]
    constructor
    · intro hc; exact absurd hc (by decide)
    · intro hab
      exfalso
      have hen := enabled_modified_exclusive (hab.2 ▸ him)
      simp only [Bool.and_eq_true] at h1
      rw [hen] at h1
      exact absurd h1.2 (by decide)
  · rw [if_neg h1]
    by_cases h2 : (!g.allow_disable && g.is_grouping_disabled gb) = true
    · rw [if_pos h2]
      constructor
      · intro hc; exact absurd hc (by decide)
      · intro hab
        exfalso
        have hdis := disabled_modified_exclusive (hab.2 ▸ him)
        simp only [Bool.and_eq_true] at h2
        rw [hdis] at h2
        exact absurd h2.2 (by decide)
    · rw [if_neg h2]
      by_cases h3 : (!g.allow_modify && m) = true
      · rw [if_pos h3]
        simp only [Bool.and_eq_true, Bool.not_eq_true'] at h3
        simp [h3]
      · rw [if_neg h3]
        constructor
        · intro hc; exact absurd hc (by decide)
        · intro hab
          exact absurd (by simp [hab.1, hab.2]) h3

example : codes ["a", "b", "a"] = [0, 1, 0] := by decide
example : codes ["a", "a", "b"] = [0, 0, 1] := by decide
example : uniques ["a", "a", "b"] = ["a", "b"] := by decide
example : get_group_counts_nb [0, 0, 1] = Except.ok [2, 1] := by decide
example : get_group_counts_nb [0, 1, 0] = Except.error GroupError.incoherentGroups := by decide
example : get_groups_and_index ["c1", "c2", "c3"] (GroupBy.labels ["a", "b", "a"]) =
    Except.error GroupError.incoherentGroups := by decide
example :
    (ColumnGrouper.mk ["c1", "c2", "c3"] none true true true).get_group_counts
      (GroupBy.labels ["a", "a", "b"]) = Except.ok [2, 1] := by decide
example :
    (ColumnGrouper.mk ["c1", "c2", "c3"] none true true true).get_group_start_idxs
      (GroupBy.labels ["a", "a", "b"]) = Except.ok [0, 2] := by decide
example :
    (ColumnGrouper.mk ["c1", "c2", "c3"] none true true true).get_group_end_idxs
      (GroupBy.labels ["a", "a", "b"]) = Except.ok [2, 3] := by decide
example :
    (ColumnGrouper.mk ["c1", "c2", "c3"] (some ["a", "a", "b"]) true true true).is_grouping_modified
      (GroupBy.labels ["x", "x", "y"]) = Except.ok false := by decide
example :
    (ColumnGrouper.mk ["c1", "c2", "c3"] (some ["a", "a", "b"]) true true true).is_grouping_modified
      (GroupBy.labels ["a", "b", "b"]) = Except.ok true := by decide

/-! ## Claims -/

/-- C1: a normalized label sequence whose factorized ids are not
non-decreasing makes `get_groups_and_index` fail with the incoherent-groups
error; an id recurring after a different id forces the ids to be unsorted;
labels `["a","b","a"]` fail concretely; and `get_group_counts_nb` itself
fails with the same error whenever it observes a decreasing id. -/
theorem spec_C1 :
    (∀ (cols ls : List α), ls.length = cols.length →
        is_sorted (codes ls) = false →
        get_groups_and_index cols (GroupBy.labels ls) =
          Except.error GroupError.incoherentGroups)
    ∧ (∀ (ls : List α) (i j k : Nat), i < j → j < k → k < ls.length →
        (codes ls).getD i 0 ≠ (codes ls).getD j 0 →
        (codes ls).getD i 0 = (codes ls).getD k 0 →
        is_sorted (codes ls) = false)
    ∧ get_groups_and_index ["c1", "c2", "c3"] (GroupBy.labels ["a", "b", "a"]) =
        Except.error GroupError.incoherentGroups
    ∧ (∀ (gs : List Int), hasAdjDecrease gs = true →
        get_group_counts_nb gs = Except.error GroupError.incoherentGroups) := by
  refine ⟨?_, ?_, by decide, ?_⟩
  · intro cols ls hlen hs
    exact get_groups_and_index_labels_incoherent cols ls hlen hs
  · intro ls i j k hij hjk hk hne heq
    by_contra hs
    rw [Bool.not_eq_false] at hs
    have hklen : k < (codes ls).length := by rw [codes_length]; exact hk
    have h1 := is_sorted_getD_mono hs (Nat.le_of_lt hij)
      (Nat.lt_of_lt_of_le hjk (Nat.le_of_lt hklen))
    have h2 := is_sorted_getD_mono hs (Nat.le_of_lt hjk) hklen
    omega
  · intro gs h
    exact gccLoop_error gs (-1) 0 [] (hasAdjDecrease_sentinel_true gs h)

/-- Witness for C1 at concrete inputs: unsorted labels and a decreasing id
array both fail with the incoherent-groups error, and a recurring id makes
the codes unsorted. -/
theorem spec_C1_witness :
    get_groups_and_index ["x", "y", "z"] (GroupBy.labels ["b", "a", "b"]) =
        Except.error GroupError.incoherentGroups
    ∧ is_sorted (codes ["p", "q", "p"]) = false
    ∧ get_group_counts_nb [1, 0] = Except.error GroupError.incoherentGroups :=
  ⟨spec_C1.1 ["x", "y", "z"] ["b", "a", "b"] (by decide) (by decide),
   spec_C1.2.1 ["p", "q", "p"] 0 1 2 (by decide) (by decide) (by decide) (by decide)
     (by decide),
   (spec_C1 (α := String)).2.2.2 [1, 0] (by decide)⟩

/-- C2: with no grouping (absent candidate, absent baseline), factorization
returns the identity id array with the original columns, and the grouper
derives C ones as counts, starts `[0..C-1]` and ends `[1..C]`. -/
theorem spec_C2 (cols : List α) (ae ad am : Bool) :
    get_groups_and_index cols GroupBy.null = Except.ok (List.range cols.length, cols)
    ∧ (ColumnGrouper.mk cols none ae ad am).get_group_counts GroupBy.null =
        Except.ok (List.replicate cols.length 1)
    ∧ (ColumnGrouper.mk cols none ae ad am).get_group_start_idxs GroupBy.null =
        Except.ok (List.range cols.length)
    ∧ (ColumnGrouper.mk cols none ae ad am).get_group_end_idxs GroupBy.null =
        Except.ok ((List.range cols.length).map (fun i => i + 1)) := by
  have hchk : (ColumnGrouper.mk cols none ae ad am).check_group_by GroupBy.null
      none none none = Except.ok () := check_group_by_null _
  have hres : (ColumnGrouper.mk cols none ae ad am).resolve_group_by GroupBy.null =
      Except.ok GroupBy.null := by
    unfold ColumnGrouper.resolve_group_by
    rw [show (ColumnGrouper.mk cols none ae ad am).substituted GroupBy.null =
        GroupBy.null from rfl]
    dsimp only
    rw [hchk, ebind_ok]
    rfl
  have hcnt : (ColumnGrouper.mk cols none ae ad am).get_group_counts GroupBy.null =
      Except.ok (List.replicate cols.length 1) := by
    unfold ColumnGrouper.get_group_counts
    rw [hres, ebind_ok]
  refine ⟨rfl, hcnt, ?_, ?_⟩
  · unfold ColumnGrouper.get_group_start_idxs
    rw [hcnt, ebind_ok, group_start_idxs_replicate_one]
  · unfold ColumnGrouper.get_group_end_idxs
    rw [hcnt, ebind_ok, group_end_idxs_replicate_one]

/-- C3: for a coherent (non-negative, non-decreasing) id array, the run
lengths sum to the array length, the first start offset is 0, the last end
offset is the array length, and each end minus start equals the count. -/
theorem spec_C3 (G : List Int) (hpos : ∀ x ∈ G, 0 ≤ x)
    (hcoh : hasAdjDecrease G = false) :
    ∃ counts, get_group_counts_nb G = Except.ok counts
      ∧ counts.sum = G.length
      ∧ (group_start_idxs counts).getD 0 0 = 0
      ∧ (group_end_idxs counts).getD (counts.length - 1) 0 = G.length
      ∧ ∀ k, k < counts.length →
          (group_end_idxs counts).getD k 0 - (group_start_idxs counts).getD k 0 =
            counts.getD k 0 := by
  obtain ⟨counts, hok, hsum⟩ := get_group_counts_nb_ok_sum G hpos hcoh
  refine ⟨counts, hok, hsum, ?_, ?_, ?_⟩
  · cases counts with
    | nil => rfl
    | cons c cs =>
      show (List.zipWith (fun a b => a - b) (cumsum (c :: cs)) (c :: cs)).getD 0 0 = 0
      rw [show cumsum (c :: cs) = (0 + c) :: cumsumFrom (0 + c) cs from rfl]
      simp
  · rw [group_end_idxs, cumsum_getD_last, hsum]
  · intro k hk
    rw [group_start_idxs_getD counts k hk]
    rw [show (group_end_idxs counts).getD k 0 = (cumsum counts).getD k 0 from rfl]
    have hc := cumsum_getD counts k hk
    have hle : counts.getD k 0 ≤ (cumsum counts).getD k 0 := by
      rw [hc, sum_take_succ_getD counts k hk]
      omega
    omega

/-- Witness for C3 on the coherent id array `[0, 0, 1, 2]`. -/
theorem spec_C3_witness :
    ∃ counts, get_group_counts_nb [0, 0, 1, 2] = Except.ok counts
      ∧ counts.sum = ([0, 0, 1, 2] : List Int).length
      ∧ (group_start_idxs counts).getD 0 0 = 0
      ∧ (group_end_idxs counts).getD (counts.length - 1) 0 =
          ([0, 0, 1, 2] : List Int).length
      ∧ ∀ k, k < counts.length →
          (group_end_idxs counts).getD k 0 - (group_start_idxs counts).getD k 0 =
            counts.getD k 0 :=
  spec_C3 [0, 0, 1, 2] (by decide) (by decide)

/-- C7: round-trip — the distinct-label index composed with the group-id
array reconstructs the normalized labels at every column position. -/
theorem spec_C7 (cols ls : List α) (gids : List Nat) (gidx : List α) (d : α)
    (h : get_groups_and_index cols (GroupBy.labels ls) = Except.ok (gids, gidx)) :
    ∀ i, i < ls.length → gidx.getD (gids.getD i 0) d = ls.getD i d := by
  have hlen : ls.length = cols.length := by
    by_contra hl
    rw [get_groups_and_index_labels_mismatch cols ls hl] at h
    cases h
  have hs : is_sorted (codes ls) = true := by
    by_contra hs
    rw [Bool.not_eq_true] at hs
    rw [get_groups_and_index_labels_incoherent cols ls hlen hs] at h
    cases h
  rw [get_groups_and_index_labels_ok cols ls hlen hs] at h
  simp only [Except.ok.injEq, Prod.mk.injEq] at h
  obtain ⟨h1, h2⟩ := h
  subst h1
  subst h2
  intro i hi
  exact uniques_getD_codes ls d i hi

/-- Witness for C7 on labels `["a","a","b"]` at position 2. -/
theorem spec_C7_witness :
    (["a", "b"] : List String).getD (([0, 0, 1] : List Nat).getD 2 0) "z" =
      (["a", "a", "b"] : List String).getD 2 "z" :=
  spec_C7 ["c1", "c2", "c3"] ["a", "a", "b"] [0, 0, 1] ["a", "b"] "z" (by decide) 2
    (by decide)

/-- C8: every successfully returned group-id array has length C, values
exactly the interval `[0, G)` (bounded and each value attained), is
non-decreasing, and each id value occupies one contiguous run. -/
theorem spec_C8 (cols : List α) (gb : GroupBy α) (gids : List Nat) (gidx : List α)
    (h : get_groups_and_index cols gb = Except.ok (gids, gidx)) :
    gids.length = cols.length
    ∧ (∀ i, i < gids.length → gids.getD i 0 < gidx.length)
    ∧ (∀ k, k < gidx.length → ∃ i, i < gids.length ∧ gids.getD i 0 = k)
    ∧ is_sorted gids = true
    ∧ (∀ i j k, i ≤ j → j ≤ k → k < gids.length →
        gids.getD i 0 = gids.getD k 0 → gids.getD j 0 = gids.getD i 0) := by
  have main : gids = List.range cols.length ∧ gidx.length = cols.length
      ∨ ∃ ls : List α, ls.length = cols.length ∧ is_sorted (codes ls) = true
        ∧ gids = codes ls ∧ gidx = uniques ls := by
    cases gb with
    | null =>
      simp only [get_groups_and_index, Except.ok.injEq, Prod.mk.injEq] at h
      exact Or.inl ⟨h.1.symm, by rw [← h.2]⟩
    | bool b =>
      simp only [get_groups_and_index, Except.ok.injEq, Prod.mk.injEq] at h
      exact Or.inl ⟨h.1.symm, by rw [← h.2]⟩
    | labels ls =>
      have hlen : ls.length = cols.length := by
        by_contra hl
        rw [get_groups_and_index_labels_mismatch cols ls hl] at h
        cases h
      have hs : is_sorted (codes ls) = true := by
        by_contra hs
        rw [Bool.not_eq_true] at hs
        rw [get_groups_and_index_labels_incoherent cols ls hlen hs] at h
        cases h
      rw [get_groups_and_index_labels_ok cols ls hlen hs] at h
      simp only [Except.ok.injEq, Prod.mk.injEq] at h
      exact Or.inr ⟨ls, hlen, hs, h.1.symm, h.2.symm⟩
  rcases main with ⟨hg, hx⟩ | ⟨ls, hlen, hs, hg, hx⟩
  · subst hg
    refine ⟨List.length_range _, ?_, ?_, ?_, ?_⟩
    · intro i hi
      rw [List.length_range] at hi
      rw [List.getD_eq_getElem _ 0 (by simpa using hi), List.getElem_range, hx]
      exact hi
    · intro k hk
      rw [hx] at hk
      refine ⟨k, by simpa using hk, ?_⟩
      rw [List.getD_eq_getElem _ 0 (by simpa using hk), List.getElem_range]
    · exact is_sorted_range _
    · intro i j k hij hjk hk heq
      exact is_sorted_contiguous (is_sorted_range _) hij hjk hk heq
  · subst hg
    subst hx
    refine ⟨by rw [codes_length, hlen], ?_, ?_, hs, ?_⟩
    · intro i hi
      rw [codes_length] at hi
      exact codes_getD_lt ls i hi
    · intro k hk
      obtain ⟨i, hi, hcode⟩ := codes_surj ls k hk
      exact ⟨i, by rw [codes_length]; exact hi, hcode⟩
    · intro i j k hij hjk hk heq
      exact is_sorted_contiguous hs hij hjk hk heq

/-- Witness for C8: length of the ids returned for `["a","a","b"]`. -/
theorem spec_C8_witness :
    ([0, 0, 1] : List Nat).length = (["c1", "c2", "c3"] : List String).length :=
  (spec_C8 ["c1", "c2", "c3"] (GroupBy.labels ["a", "a", "b"]) [0, 0, 1] ["a", "b"]
    (by decide)).1

/-- C9: normalization of an explicit label sequence fails with the length
mismatch error exactly when the sequence length differs from the column
count, and otherwise returns the coerced sequence unchanged. -/
theorem spec_C9 (cols ls : List α) :
    (group_by_to_index cols (GroupBy.labels ls) = Except.error GroupError.lengthMismatch
      ↔ ls.length ≠ cols.length)
    ∧ (ls.length = cols.length →
        group_by_to_index cols (GroupBy.labels ls) = Except.ok (GroupBy.labels ls)) := by
  constructor
  · constructor
    · intro h hlen
      unfold group_by_to_index at h
      dsimp only at h
      rw [if_pos hlen] at h
      cases h
    · intro hlen
      unfold group_by_to_index
      dsimp only
      rw [if_neg hlen]
  · intro hlen
    unfold group_by_to_index
    dsimp only
    rw [if_pos hlen]

/-- Witness for C9: a length-3 mapper against 2 columns fails, a length-2
mapper passes through. -/
theorem spec_C9_witness :
    group_by_to_index ["c1", "c2"] (GroupBy.labels ["a", "b", "c"]) =
        Except.error GroupError.lengthMismatch
    ∧ group_by_to_index ["c1", "c2"] (GroupBy.labels ["a", "a"]) =
        Except.ok (GroupBy.labels ["a", "a"]) :=
  ⟨(spec_C9 ["c1", "c2"] ["a", "b", "c"]).1.mpr (by decide),
   (spec_C9 ["c1", "c2"] ["a", "a"]).2 (by decide)⟩

/-- C10: the default request (absent candidate, "use baseline") is never
reported as a change, and the permission check always passes on it,
whatever the baseline and permission flags. -/
theorem spec_C10 (g : ColumnGrouper α) :
    g.is_grouping_enabled GroupBy.null = false
    ∧ g.is_grouping_disabled GroupBy.null = false
    ∧ g.is_grouping_modified GroupBy.null = Except.ok false
    ∧ g.is_grouping_changed GroupBy.null = Except.ok false
    ∧ g.check_group_by GroupBy.null none none none = Except.ok () := by
  refine ⟨is_grouping_enabled_null g, is_grouping_disabled_null g,
    is_grouping_modified_null g, ?_, check_group_by_null g⟩
  unfold ColumnGrouper.is_grouping_changed
  rw [is_grouping_enabled_null g, is_grouping_disabled_null g]
  simpa using is_grouping_modified_null g

/-- C4: `is_grouping_modified` reports a modification exactly when the
partition differs, not merely the labeling: with both sequences present and
coherent it returns `true` iff the raw labels differ AND the factorized ids
differ; it returns `false` whenever the candidate or the baseline is
absent; and on baseline `["a","a","b"]` the relabeling `["x","x","y"]` is
not a modification while the repartition `["a","b","b"]` is. -/
theorem spec_C4 :
    (∀ (cols base ls : List α) (ae ad am : Bool),
        base.length = cols.length → ls.length = cols.length →
        is_sorted (codes base) = true → is_sorted (codes ls) = true →
        ((ColumnGrouper.mk cols (some base) ae ad am).is_grouping_modified
            (GroupBy.labels ls) = Except.ok true
          ↔ ls ≠ base ∧ codes ls ≠ codes base))
    ∧ (∀ (g : ColumnGrouper α), g.is_grouping_modified GroupBy.null = Except.ok false)
    ∧ (∀ (g : ColumnGrouper α) (b : Bool),
        g.is_grouping_modified (GroupBy.bool b) = Except.ok false)
    ∧ (∀ (cols ls : List α) (ae ad am : Bool), ls.length = cols.length →
        (ColumnGrouper.mk cols none ae ad am).is_grouping_modified
          (GroupBy.labels ls) = Except.ok false)
    ∧ (ColumnGrouper.mk ["c1", "c2", "c3"] (some ["a", "a", "b"])
        true true true).is_grouping_modified (GroupBy.labels ["x", "x", "y"]) =
          Except.ok false
    ∧ (ColumnGrouper.mk ["c1", "c2", "c3"] (some ["a", "a", "b"])
        true true true).is_grouping_modified (GroupBy.labels ["a", "b", "b"]) =
          Except.ok true := by
  refine ⟨?_, ?_, ?_, ?_, by decide, by decide⟩
  · intro cols base ls ae ad am hblen hlen hbs hs
    rw [is_grouping_modified_labels_some rfl hlen hblen hs hbs]
    by_cases he : ls = base <;> by_cases hc : codes ls = codes base <;>
      simp [he, hc]
  · intro g
    exact is_grouping_modified_null g
  · intro g b
    exact is_grouping_modified_bool g b
  · intro cols ls ae ad am hlen
    exact is_grouping_modified_labels_none ls rfl hlen

/-- Witness for C4: the modification iff at a concrete grouper, and the
absent-baseline case. -/
theorem spec_C4_witness :
    ((ColumnGrouper.mk ["c1", "c2"] (some ["a", "a"])
        true true true).is_grouping_modified (GroupBy.labels ["a", "b"]) =
          Except.ok true
      ↔ (["a", "b"] : List String) ≠ ["a", "a"]
        ∧ codes ["a", "b"] ≠ codes ["a", "a"])
    ∧ (ColumnGrouper.mk ["c1", "c2"] none true true true).is_grouping_modified
        (GroupBy.labels ["a", "b"]) = Except.ok false :=
  ⟨spec_C4.1 ["c1", "c2"] ["a", "a"] ["a", "b"] true true true (by decide) (by decide)
      (by decide) (by decide),
   spec_C4.2.2.2.1 ["c1", "c2"] ["a", "b"] true true true (by decide)⟩

/-- C5: the permission check fails with the enable / disable / modify
permission error exactly when the corresponding flag is false and the
corresponding predicate holds; a grouper with `allow_enable = false` and an
absent baseline rejects every explicit grouping request with the enable
error, while the same request with `allow_enable = true` and labels
`["a","a","b"]` succeeds with counts `[2,1]`, starts `[0,2]`, ends `[2,3]`. -/
theorem spec_C5 :
    (∀ (g : ColumnGrouper α) (gb : GroupBy α) (m : Bool),
        g.is_grouping_modified gb = Except.ok m →
        ((g.check_group_by gb none none none = Except.error GroupError.permissionEnable
            ↔ g.allow_enable = false ∧ g.is_grouping_enabled gb = true)
          ∧ (g.check_group_by gb none none none =
                Except.error GroupError.permissionDisable
            ↔ g.allow_disable = false ∧ g.is_grouping_disabled gb = true)
          ∧ (g.check_group_by gb none none none =
                Except.error GroupError.permissionModify
            ↔ g.allow_modify = false ∧ m = true)))
    ∧ (∀ (cols ls : List α) (ad am : Bool),
        (ColumnGrouper.mk cols none false ad am).check_group_by (GroupBy.labels ls)
          none none none = Except.error GroupError.permissionEnable)
    ∧ (ColumnGrouper.mk ["c1", "c2", "c3"] none true true true).get_group_counts
        (GroupBy.labels ["a", "a", "b"]) = Except.ok [2, 1]
    ∧ (ColumnGrouper.mk ["c1", "c2", "c3"] none true true true).get_group_start_idxs
        (GroupBy.labels ["a", "a", "b"]) = Except.ok [0, 2]
    ∧ (ColumnGrouper.mk ["c1", "c2", "c3"] none true true true).get_group_end_idxs
        (GroupBy.labels ["a", "a", "b"]) = Except.ok [2, 3] := by
  refine ⟨?_, ?_, by decide, by decide, by decide⟩
  · intro g gb m him
    exact ⟨check_error_enable_iff him, check_error_disable_iff him,
      check_error_modify_iff him⟩
  · intro cols ls ad am
    rfl

/-- Witness for C5: the enable-error iff at a concrete grouper. -/
theorem spec_C5_witness :
    (ColumnGrouper.mk ["c1"] none false true true).check_group_by
        (GroupBy.labels ["g1"]) none none none =
          Except.error GroupError.permissionEnable
      ↔ (ColumnGrouper.mk ["c1"] none false true true).allow_enable = false
        ∧ (ColumnGrouper.mk ["c1"] none false true true).is_grouping_enabled
            (GroupBy.labels ["g1"]) = true :=
  (spec_C5.1 (ColumnGrouper.mk ["c1"] none false true true) (GroupBy.labels ["g1"])
    false (by decide)).1

/-- C6: `resolve_group_by` substitutes the baseline for `UseBaseline` and
for an absent candidate, short-circuits an explicit disable to absent
grouping when the baseline is absent, propagates the permission check's
error before normalization, and otherwise delegates to `group_by_to_index`;
in particular resolving `UseBaseline` equals resolving the baseline
directly. -/
theorem spec_C6 :
    (∀ (g : ColumnGrouper α),
        g.resolve_group_by (GroupBy.bool true) =
          g.resolve_group_by
            (match g.group_by with
              | some ls => GroupBy.labels ls
              | none => GroupBy.null))
    ∧ (∀ (g : ColumnGrouper α),
        g.resolve_group_by GroupBy.null = g.resolve_group_by (GroupBy.bool true))
    ∧ (∀ (g : ColumnGrouper α), g.group_by = none →
        g.resolve_group_by (GroupBy.bool false) = Except.ok GroupBy.null)
    ∧ (∀ (g : ColumnGrouper α) (gb : GroupBy α) (e : GroupError),
        g.check_group_by (g.substituted gb) none none none = Except.error e →
        g.resolve_group_by gb = Except.error e)
    ∧ (∀ (g : ColumnGrouper α) (gb : GroupBy α),
        g.check_group_by (g.substituted gb) none none none = Except.ok () →
        g.resolve_group_by gb = group_by_to_index g.columns (g.substituted gb)) := by
  have hressub : ∀ (g : ColumnGrouper α) (gb1 gb2 : GroupBy α),
      g.substituted gb1 = g.substituted gb2 →
      g.resolve_group_by gb1 = g.resolve_group_by gb2 := by
    intro g gb1 gb2 h
    unfold ColumnGrouper.resolve_group_by
    rw [h]
  refine ⟨?_, ?_, ?_, ?_, ?_⟩
  · intro g
    obtain ⟨cols, ogb, ae, ad, am⟩ := g
    apply hressub
    cases ogb <;> rfl
  · intro g
    obtain ⟨cols, ogb, ae, ad, am⟩ := g
    apply hressub
    cases ogb <;> rfl
  · intro g hgb
    obtain ⟨cols, ogb, ae, ad, am⟩ := g
    dsimp only at hgb
    subst hgb
    unfold ColumnGrouper.resolve_group_by
    rw [show (ColumnGrouper.mk cols none ae ad am).substituted (GroupBy.bool false) =
        GroupBy.null from rfl]
    dsimp only
    rw [check_group_by_null _, ebind_ok]
    rfl
  · intro g gb e h
    unfold ColumnGrouper.resolve_group_by
    dsimp only
    rw [h, ebind_err]
  · intro g gb h
    unfold ColumnGrouper.resolve_group_by
    dsimp only
    rw [h, ebind_ok]

/-- Witness for C6: explicit disable with absent baseline resolves to
absent grouping; a failing check propagates; a passing check delegates. -/
theorem spec_C6_witness :
    (ColumnGrouper.mk ["c1"] none true true true).resolve_group_by
        (GroupBy.bool false) = Except.ok GroupBy.null
    ∧ (ColumnGrouper.mk ["c1"] none false true true).resolve_group_by
        (GroupBy.labels ["g1"]) = Except.error GroupError.permissionEnable
    ∧ (ColumnGrouper.mk ["c1"] none true true true).resolve_group_by
        (GroupBy.labels ["g1"]) =
          group_by_to_index ["c1"]
            ((ColumnGrouper.mk ["c1"] none true true true).substituted
              (GroupBy.labels ["g1"])) :=
  ⟨spec_C6.2.2.1 (ColumnGrouper.mk ["c1"] none true true true) rfl,
   spec_C6.2.2.2.1 (ColumnGrouper.mk ["c1"] none false true true)
     (GroupBy.labels ["g1"]) GroupError.permissionEnable (by decide),
   spec_C6.2.2.2.2 (ColumnGrouper.mk ["c1"] none true true true)
     (GroupBy.labels ["g1"]) (by decide)⟩

end VectorBT
